import Mathlib

/-!
Verification of the M4L website Change Detection & Application Engine
specification against the code of the repository.

The Next.js front end (status polling, result extraction, download URL
construction, rewrite configuration, PDF form-field extraction) is embedded
from the TypeScript sources under `frontend/`.  The engine core (Cascading
Text Matcher, Change Applier, run orchestration) is not found among the
source files of this repository; those components are modelled from the specification
text, as indicated by their doc comments.

JavaScript conventions used by the embedding:
* `a || b` on strings is modelled with `jsOrString` (empty string is falsy);
* optional / possibly-`undefined` JSON fields are `Option` fields;
* `x.split(regex)` is modelled by the structural `splitFields`;
* fallible asynchronous flows are modelled with `Except String`.
-/

namespace M4L

/-- Splits a character list into fields at every separator character,
keeping empty fields, exactly like the JavaScript `String.prototype.split`
with a single-character-class regex. -/
def splitFields (p : Char → Bool) : List Char → List (List Char)
  | [] => [[]]
  | c :: cs =>
    let r := splitFields p cs
    if p c then [] :: r
    else
      match r with
      | [] => [[c]]
      | w :: ws => (c :: w) :: ws

/-- Matches `pre` against the front of `l`; on success returns the remainder. -/
def chopPre : List Char → List Char → Option (List Char)
  | [], l => some l
  | _ :: _, [] => none
  | a :: as, b :: bs => if a = b then chopPre as bs else none

/-- `containsSub needle hay` decides whether `needle` occurs contiguously in `hay`
(the embedding of the JavaScript `String.prototype.includes`). -/
def containsSub (needle : List Char) : List Char → Bool
  | [] => needle.isEmpty
  | c :: t => needle.isPrefixOf (c :: t) || containsSub needle t

/-- Strips the suffix `suf` from `l`, if present. -/
def dropSuf (suf l : List Char) : Option (List Char) :=
  if suf.reverse.isPrefixOf l.reverse then some ((l.reverse.drop suf.length).reverse)
  else none

/-- JavaScript `a || b` for a possibly-undefined string `a`:
`undefined` and the empty string are falsy. -/
def jsOrString (a : Option String) (b : String) : String :=
  match a with
  | some s => if s = "" then b else s
  | none => b

/-- JavaScript truthiness filter for a possibly-undefined string. -/
def jsTruthy (a : Option String) : Option String :=
  match a with
  | some s => if s = "" then none else some s
  | none => none

/-- Splits a string at every forward or backward slash, as the per-page
`split(/[/\\]/)` does. -/
def splitSlashes (s : String) : List String :=
  (splitFields (fun c => c = '/' || c = '\\') s.data).map String.mk

/-- `split(/[/\\]/).pop()` - the last path segment (possibly empty). -/
def lastSlashSeg (s : String) : String :=
  (splitSlashes s).getLastD ""

/-! ## Job-status payloads of the Value Creator page

Embedded from `frontend/app/value-creator/page.tsx`.  Every JSON field the
page reads is an optional field; the `x || defaultValue` accesses of the page are
`Option.getD`. -/

/-- `result.stages.word_processing.changes.strategy_breakdown`. -/
structure StrategyBreakdown where
  exact_matches : Option Nat
  similarity_matches : Option Nat
  keyword_matches : Option Nat
deriving DecidableEq

/-- `result.stages.word_processing.changes`. -/
structure ChangesInfo where
  total_changes_applied : Option Nat
  strategy_breakdown : Option StrategyBreakdown
deriving DecidableEq

/-- `result.stages.word_processing.sections`. -/
structure SectionsInfo where
  successful_sections : Option Nat
deriving DecidableEq

/-- `result.stages.word_processing`. -/
structure WordProcessing where
  sections : Option SectionsInfo
  changes : Option ChangesInfo
deriving DecidableEq

/-- `result.stages.pdf_analysis`. -/
structure PdfAnalysis where
  chunks_processed : Option Nat
deriving DecidableEq

/-- `result.stages`. -/
structure StagesInfo where
  pdf_analysis : Option PdfAnalysis
  word_processing : Option WordProcessing
deriving DecidableEq

/-- The `result` object of a Value Creator status payload. -/
structure VCResult where
  stages : Option StagesInfo
  output_file : Option String
  status : Option String
  error : Option String
deriving DecidableEq

/-- The fields of the `results` state object that the Value Creator page
displays (`jobId` and the formatted processing time are kept by the page as
well but play no role in the data flow of the verified claims). -/
structure VCDisplay where
  chunksProcessed : Nat
  sectionsProcessed : Nat
  changesApplied : Nat
  finalDocument : Option String
  outputFile : String
deriving DecidableEq

/-- Result extraction of the polling `pollStatus` on the Value Creator page
(`page.tsx`, completed branch): every `x || y` default chain is embedded
with `Option.getD`, and `changesApplied` is `changes.total_changes_applied || 0`. -/
def extractCompleted (result? : Option VCResult) : VCDisplay :=
  let result := result?.getD ⟨none, none, none, none⟩
  let stages := result.stages.getD ⟨none, none⟩
  let pdfAnalysis := stages.pdf_analysis.getD ⟨none⟩
  let wordProcessing := stages.word_processing.getD ⟨none, none⟩
  let changes := wordProcessing.changes.getD ⟨none, none⟩
  let sections := wordProcessing.sections.getD ⟨none⟩
  let totalChanges := changes.total_changes_applied.getD 0
  { chunksProcessed := pdfAnalysis.chunks_processed.getD 0
    sectionsProcessed := sections.successful_sections.getD 0
    changesApplied := totalChanges
    finalDocument := result.output_file
    outputFile :=
      match result.output_file with
      | some f => if f = "" then "value_creator_output.docx" else lastSlashSeg f
      | none => "value_creator_output.docx" }

/-- `changesApplied` as computed by the polling implementation
(`pollStatus`, completed branch): `changes.total_changes_applied || 0`. -/
def pollChangesApplied (result? : Option VCResult) : Nat :=
  (extractCompleted result?).changesApplied

/-- `changesApplied` as computed by the synchronous `handleProcess`
implementation of the Value Creator page: the sum of the three
`strategy_breakdown` counters, each defaulted to `0`. -/
def syncChangesApplied (result? : Option VCResult) : Nat :=
  let result := result?.getD ⟨none, none, none, none⟩
  let stages := result.stages.getD ⟨none, none⟩
  let wordProcessing := stages.word_processing.getD ⟨none, none⟩
  let changes := wordProcessing.changes.getD ⟨none, none⟩
  let strategyBreakdown := changes.strategy_breakdown.getD ⟨none, none, none⟩
  strategyBreakdown.exact_matches.getD 0 + strategyBreakdown.similarity_matches.getD 0 +
    strategyBreakdown.keyword_matches.getD 0

/-! ## Status polling

`pollStatus` on both pages is a recursive `async` function over a shared
mutable `attempts` counter; each invocation first checks
`attempts >= maxAttempts`, then increments `attempts` and performs one
`fetch`.  The embedding passes `attempts` explicitly and recurses on the
remaining budget `maxAttempts - attempts`, so every retry path consumes one
attempt exactly as the closure variable does.  The `n`-th fetch of a run is
`responses n`.

On the Value Creator page every recursive call sits inside the `try` of its frame, whose `catch` retries when the caught message contains `"fetch"` and
rethrows otherwise.  Messages that escape a frame never contain `"fetch"`
(they were rethrown precisely for that reason, or are the timeout message),
so every enclosing frame rethrows them unchanged and the flat recursion
below is observationally equivalent to the nested one. -/

/-- One status-endpoint fetch outcome, at the level the page observes it:
a network failure (the browser TypeError with message `Failed to fetch`), a non-OK
HTTP response with its status code and body text, or a parsed JSON body
with `status`, `error` and `result` fields. -/
inductive PollResponse where
  | netError : PollResponse
  | httpError (code : Nat) (body : String) : PollResponse
  | ok (status : String) (error : Option String) (result : Option VCResult) : PollResponse
deriving DecidableEq

/-- The timeout error thrown by both pages once `attempts >= maxAttempts`. -/
def timeoutMsg : String := "Processing timeout - please try again"

/-- `fetchError.message.includes` applied to the text `fetch` - the retry
predicate of the catch block on the Value Creator page. -/
def containsFetch (s : String) : Bool :=
  containsSub ("fetch".data) s.data

/-- The message thrown for a non-OK, non-retryable status response on the
Value Creator page. -/
def statusCheckFailedMsg (code : Nat) (body : String) : String :=
  "Status check failed (" ++ toString code ++ "): " ++ body

/-- `pollStatus` of `frontend/app/value-creator/page.tsx`, with `attempts`
explicit and the remaining attempt budget as the recursion measure.
Branches, in source order: timeout guard; network error (message contains
`"fetch"`, so the catch retries); 502/503/504 retry; other non-OK response
(thrown, rethrown by the catch only when its message lacks `"fetch"`);
`completed`; `failed` (thrown, and likewise swallowed and retried by the
catch when the message contains `"fetch"`); still processing. -/
def pollValueCreatorFrom (responses : Nat → PollResponse) (attempts : Nat) :
    Nat → Except String VCDisplay
  | 0 => Except.error timeoutMsg
  | remaining + 1 =>
    match responses attempts with
    | PollResponse.netError => pollValueCreatorFrom responses (attempts + 1) remaining
    | PollResponse.httpError code body =>
      if code = 502 || code = 503 || code = 504 then
        pollValueCreatorFrom responses (attempts + 1) remaining
      else
        let msg := statusCheckFailedMsg code body
        if containsFetch msg then pollValueCreatorFrom responses (attempts + 1) remaining
        else Except.error msg
    | PollResponse.ok status error result =>
      if status = "completed" then Except.ok (extractCompleted result)
      else if status = "failed" then
        let msg := jsOrString error "Processing failed"
        if containsFetch msg then pollValueCreatorFrom responses (attempts + 1) remaining
        else Except.error msg
      else pollValueCreatorFrom responses (attempts + 1) remaining

/-- The polling loop of the Value Creator page started as the page starts it:
`attempts = 0`. -/
def pollStatusValueCreator (responses : Nat → PollResponse) (maxAttempts : Nat) :
    Except String VCDisplay :=
  pollValueCreatorFrom responses 0 maxAttempts

/-- `maxAttempts` on the Value Creator page. -/
def valueCreatorMaxAttempts : Nat := 180

/-- The `result` object of an A3 status payload. -/
structure A3Result where
  output_pdf_path : Option String
  output_pdf : Option String
deriving DecidableEq

/-- One A3 status fetch outcome. -/
inductive A3Response where
  | netError : A3Response
  | httpError (code : Nat) : A3Response
  | ok (status : String) (error : Option String) (result : Option A3Result) : A3Response
deriving DecidableEq

/-- The `API_BASE.replace` call dropping one trailing slash. -/
def dropTrailSlash (s : String) : String :=
  if s.data.getLast? = some '/' then String.mk s.data.dropLast else s

/-- `pdfUrl.startsWith('/')`. -/
def startsWithSlash (s : String) : Bool :=
  match s.data with
  | '/' :: _ => true
  | _ => false

/-- `pollStatus` of `frontend/app/a3-automation/page.tsx`.  It has no inner
try/catch: a network failure or thrown error propagates to `handleProcess`.
On `completed` it resolves `output_pdf_path || output_pdf || null`, fails
when that is falsy, and prefixes `API_BASE` (trailing slash stripped) when
the path starts with `/` and `API_BASE` is non-empty. -/
def pollA3From (apiBase : String) (responses : Nat → A3Response) (attempts : Nat) :
    Nat → Except String String
  | 0 => Except.error timeoutMsg
  | remaining + 1 =>
    match responses attempts with
    | A3Response.netError => Except.error "Failed to fetch"
    | A3Response.httpError _ => Except.error "Failed to check status"
    | A3Response.ok status error result =>
      if status = "completed" then
        let r := result.getD ⟨none, none⟩
        match (jsTruthy r.output_pdf_path).orElse (fun _ => jsTruthy r.output_pdf) with
        | none => Except.error "Processing did not return processed PDF"
        | some p =>
          if apiBase ≠ "" ∧ startsWithSlash p then Except.ok (dropTrailSlash apiBase ++ p)
          else Except.ok p
      else if status = "failed" then Except.error (jsOrString error "Processing failed")
      else pollA3From apiBase responses (attempts + 1) remaining

/-- The polling loop of the A3 page started at `attempts = 0`. -/
def pollStatusA3 (apiBase : String) (responses : Nat → A3Response) (maxAttempts : Nat) :
    Except String String :=
  pollA3From apiBase responses 0 maxAttempts

/-- `maxAttempts` on the A3 page. -/
def a3MaxAttempts : Nat := 120

/-- A Value Creator status response that neither completes nor fails the
job and never aborts polling: still-processing JSON, a 502/503/504
response, or a network error. -/
def vcNonFinal : PollResponse → Prop
  | PollResponse.netError => True
  | PollResponse.httpError code _ => code = 502 ∨ code = 503 ∨ code = 504
  | PollResponse.ok status _ _ => status ≠ "completed" ∧ status ≠ "failed"

/-- An A3 status response that keeps the polling loop going: parsed JSON
whose status is neither `completed` nor `failed`. -/
def a3NonFinal : A3Response → Prop
  | A3Response.ok status _ _ => status ≠ "completed" ∧ status ≠ "failed"
  | _ => False

/-! ## Download handler and rewrite configuration -/

/-- The `results` fields consulted by `handleDownload`. -/
structure DownloadInput where
  finalDocument : Option String
  jobId : String
deriving DecidableEq

/-- `handleDownload` of the Value Creator page: guard on truthy
`finalDocument` and `jobId`, take the last path segment of the output file
path (split on `/` and `\`, defaulting to `value_creator_output.docx`), and
build `API_BASE + '/downloads/' + jobId + '/' + fileName`.  Returns the
requested URL, or `none` when the guard rejects. -/
def handleDownload (apiBase : String) (results : DownloadInput) : Option String :=
  match jsTruthy results.finalDocument with
  | none => none
  | some doc =>
    if results.jobId = "" then none
    else
      let fileName := jsOrString (some (lastSlashSeg doc)) "value_creator_output.docx"
      some (apiBase ++ "/downloads/" ++ results.jobId ++ "/" ++ fileName)

/-- One rewrite rule of `next.config.mjs`. -/
structure RewriteRule where
  source : String
  destination : String
deriving DecidableEq

/-- The production backend host, the default `apiUrl` of `next.config.mjs`
when `NEXT_PUBLIC_API_URL` is unset. -/
def backendHost : String := "https://m4l-backend.onrender.com"

/-- The rewrite list returned by `rewrites()` in `next.config.mjs`. -/
def nextRewrites (apiUrl : String) : List RewriteRule :=
  [ { source := "/api/:path*", destination := apiUrl ++ "/api/:path*" }
  , { source := "/downloads/:path*", destination := apiUrl ++ "/downloads/:path*" }
  , { source := "/view/:path*", destination := apiUrl ++ "/view/:path*" } ]

/-- Modelled Next.js path matching for `:path*` catch-all rules: the rule
matches when the part of `source` before `:path*` is a prefix of the path,
and rewrites to `destination` with `:path*` replaced by the remainder. -/
def ruleApply (r : RewriteRule) (path : String) : Option String :=
  match dropSuf (":path*".data) r.source.data, dropSuf (":path*".data) r.destination.data with
  | some srcPre, some dstPre =>
    match chopPre srcPre path.data with
    | some rest => some (String.mk (dstPre ++ rest))
    | none => none
  | _, _ => none

/-- First-matching-rule semantics over the rewrite list. -/
def applyRewrites (rules : List RewriteRule) (path : String) : Option String :=
  match rules with
  | [] => none
  | r :: rs =>
    match ruleApply r path with
    | some res => some res
    | none => applyRewrites rs path

/-! ## Cascading Text Matcher, Change Applier and run loop

The engine itself (backend) is not among the source files of this repository;
only its front-end callers are.  The definitions below are therefore
modelled from the specification (sections 3, 4.4, 4.5), as their doc
comments state. -/

/-- Modelled from the spec: punctuation noise stripped by normalization. -/
def isPunctChar (c : Char) : Bool :=
  c = ',' || c = '.' || c = ';' || c = ':' || c = '!' || c = '?' || c = '$' ||
    c = '(' || c = ')'

/-- Modelled from the spec: text normalization of the Cascading Text
Matcher - case-fold, strip punctuation noise, collapse whitespace. -/
def normalizeText (s : String) : String :=
  let lowered := s.data.map Char.toLower
  let stripped := lowered.filter (fun c => !(isPunctChar c))
  let words := (splitFields (fun c => c = ' ' || c = '\t' || c = '\n') stripped).filter
    (fun w => w ≠ [])
  String.mk (List.intercalate [' '] words)

/-- Modelled from the spec: one addressable unit of the destination
document (`DestinationUnit`), with its stable ordinal id and current text. -/
structure DUnit where
  id : Nat
  text : String
deriving DecidableEq

/-- Modelled from the spec: the strategy recorded in a `MatchResult`. -/
inductive MatchStrategy where
  | exact
  | similarity
  | keyword
  | none
deriving DecidableEq

/-- Modelled from the spec: the outcome of matching one candidate against
the destination pool.  `unit?` is `some` exactly when a strategy accepted. -/
structure MatchOutcome where
  unit? : Option DUnit
  strategy : MatchStrategy
  score : ℚ
  accepted : Bool
deriving DecidableEq

/-- Modelled from the spec: the configurable ingredients of the matcher - the
normalized string-similarity score, the salient-token overlap count, and
the minimum keyword overlap. -/
structure MatcherParams where
  sim : String → String → ℚ
  kwOverlap : String → String → Nat
  minOverlap : Nat

/-- Modelled from the spec: the test of the exact strategy - after normalizing
both sides, the candidate occurs in the unit as a substring or equals its
full text. -/
def exactUnitMatch (cand : String) (u : DUnit) : Bool :=
  let nc := (normalizeText cand).data
  let nu := (normalizeText u.text).data
  nu = nc || containsSub nc nu

/-- Modelled from the spec: the maximum-scoring unit under a scoring
function, ties broken by earliest destination ordinal position (the fold
replaces the leader only on a strictly greater score). -/
def bestBy (score : DUnit → ℚ) (units : List DUnit) : Option (DUnit × ℚ) :=
  units.foldl
    (fun acc u =>
      match acc with
      | Option.none => some (u, score u)
      | some (v, bs) => if score u > bs then some (u, score u) else some (v, bs))
    Option.none

/-- Modelled from the spec: the similarity acceptance threshold (0.6). -/
def similarityThreshold : ℚ := 3 / 5

/-- Modelled from the spec: the keyword strategy, attempted only when exact
and similarity both fail - accept the highest-overlap unit at or above the
configured minimum overlap, ties broken by earliest position. -/
def keywordFallback (P : MatcherParams) (cand : String) (units : List DUnit) : MatchOutcome :=
  let best := units.foldl
    (fun acc u =>
      match acc with
      | Option.none => some (u, P.kwOverlap cand u.text)
      | some (v, bk) => if P.kwOverlap cand u.text > bk then some (u, P.kwOverlap cand u.text)
        else some (v, bk))
    Option.none
  match best with
  | some (u, k) =>
    if P.minOverlap ≤ k then
      { unit? := some u, strategy := MatchStrategy.keyword, score := (k : ℚ), accepted := true }
    else { unit? := Option.none, strategy := MatchStrategy.none, score := 0, accepted := false }
  | Option.none =>
    { unit? := Option.none, strategy := MatchStrategy.none, score := 0, accepted := false }

/-- Modelled from the spec: the Cascading Text Matcher - exact, then
similarity (threshold 0.6), then keyword, in strict precedence order; the
first destination unit satisfying the exact test wins with score 1.0. -/
def cascadingMatch (P : MatcherParams) (cand : String) (units : List DUnit) : MatchOutcome :=
  match units.find? (exactUnitMatch cand) with
  | some u => { unit? := some u, strategy := MatchStrategy.exact, score := 1, accepted := true }
  | Option.none =>
    match bestBy (fun u => P.sim cand u.text) units with
    | some (u, s) =>
      if similarityThreshold ≤ s then
        { unit? := some u, strategy := MatchStrategy.similarity, score := s, accepted := true }
      else keywordFallback P cand units
    | Option.none => keywordFallback P cand units

/-- Modelled from the spec: the three mutation operations of the Change
Applier. -/
inductive ChangeOp where
  | replace
  | delete
  | append
deriving DecidableEq

/-- Modelled from the spec: one paragraph/run of a word-processing
destination, with its formatting handle. -/
structure Para where
  id : Nat
  text : String
  style : Nat
deriving DecidableEq

/-- Modelled from the spec: the audit record of an applied mutation. -/
structure ChangeRecord where
  regionId : Nat
  unitId : Nat
  op : ChangeOp
  before : String
  after : String
deriving DecidableEq

/-- Modelled from the spec: the per-run state of the Change Applier - the
destination document plus the unit+operation pairs already applied within
this run. -/
structure ApplierState where
  doc : List Para
  applied : List (Nat × ChangeOp)
deriving DecidableEq

/-- A fresh paragraph id for an appended paragraph. -/
def freshId (doc : List Para) : Nat :=
  doc.foldl (fun m p => max m p.id) 0 + 1

/-- Inserts a paragraph immediately after the unit with the given id. -/
def insertAfterUnit (uid : Nat) (newPara : Para) : List Para → List Para
  | [] => []
  | p :: ps =>
    if p.id = uid then p :: newPara :: ps
    else p :: insertAfterUnit uid newPara ps

/-- Modelled from the spec: the raw word-processing mutation - replace and
delete operate at the paragraph level preserving the style handle; append
inserts a new paragraph immediately after the matched unit, inheriting its
style. -/
def applyMutation (doc : List Para) (c : ChangeRecord) : List Para :=
  match c.op with
  | ChangeOp.replace =>
    doc.map (fun p => if p.id = c.unitId then { p with text := c.after } else p)
  | ChangeOp.delete => doc.filter (fun p => p.id ≠ c.unitId)
  | ChangeOp.append =>
    let style := ((doc.find? (fun p => p.id = c.unitId)).map Para.style).getD 0
    insertAfterUnit c.unitId { id := freshId doc, text := c.after, style := style } doc

/-- Modelled from the spec: the Change Applier - idempotent per
unit+operation pair within a run, so a `ChangeRecord` whose unit+operation
pair was already applied is a no-op rather than a duplicate insertion. -/
def applyChange (st : ApplierState) (c : ChangeRecord) : ApplierState :=
  if (c.unitId, c.op) ∈ st.applied then st
  else { doc := applyMutation st.doc c, applied := (c.unitId, c.op) :: st.applied }

/-- Modelled from the spec: the resolved extraction text of one region and the
operation inferred from the extraction semantics. -/
structure Region where
  text : String
  op : ChangeOp
deriving DecidableEq

/-- Modelled from the spec: the per-run matching state of the orchestrator - the
pool of not-yet-consumed destination units, the log of accepted matches,
and the unmatched count. -/
structure RunState where
  pool : List DUnit
  matched : List (Nat × ChangeOp)
  unmatchedCount : Nat
deriving DecidableEq

/-- Modelled from the spec: processing of one region - match against the
pool; on acceptance, log the match and remove the unit from the pool unless
the operation is an explicit `append`; otherwise count the region as
unmatched. -/
def runStep (P : MatcherParams) (s : RunState) (r : Region) : RunState :=
  match (cascadingMatch P r.text s.pool).unit? with
  | some u =>
    { pool := if r.op = ChangeOp.append then s.pool
        else s.pool.filter (fun v => v.id ≠ u.id)
      matched := (u.id, r.op) :: s.matched
      unmatchedCount := s.unmatchedCount }
  | Option.none =>
    { pool := s.pool, matched := s.matched, unmatchedCount := s.unmatchedCount + 1 }

/-- The run states reached after each of the remaining regions, in order. -/
def runStates (P : MatcherParams) (s : RunState) : List Region → List RunState
  | [] => []
  | r :: rs =>
    let s' := runStep P s r
    s' :: runStates P s' rs

/-! ## PDF form-field extraction

Embedded from `frontend/lib/pdfFormExtractor.ts`.  The annotations PDF.js
returns carry string-valued `fieldType`, `fieldName`, `fieldValue` and
`defaultFieldValue` properties for form fields; absent or falsy values are
the empty string, matching JavaScript truthiness for strings. -/

/-- The form-relevant properties of one PDF.js form element. -/
structure PdfAnnot where
  fieldType : String
  fieldName : String
  fieldValue : String
  defaultFieldValue : String
deriving DecidableEq

/-- A loaded PDF document: the per-page lists of form elements, in page order. -/
abbrev PdfDoc := List (List PdfAnnot)

/-- The `fieldValue || defaultFieldValue` chain, empty string when both are falsy. -/
def annotValue (a : PdfAnnot) : String :=
  if a.fieldValue ≠ "" then a.fieldValue else a.defaultFieldValue

/-- `formData[fieldName] = value` - JavaScript object assignment over the
record, overwriting an existing key and appending a new one. -/
def setField (m : List (String × String)) (k v : String) : List (String × String) :=
  if m.any (fun p => p.1 = k) then
    m.map (fun p => if p.1 = k then (k, v) else p)
  else m ++ [(k, v)]

/-- The annotation loop body of `extractPdfFormData` over one page. -/
def extractPage (page : List PdfAnnot) (fd : List (String × String)) :
    List (String × String) :=
  page.foldl
    (fun fd a =>
      if a.fieldType ≠ "" ∧ a.fieldName ≠ "" then
        let v := annotValue a
        if v ≠ "" then setField fd a.fieldName v else fd
      else fd)
    fd

/-- `extractPdfFormData` of `frontend/lib/pdfFormExtractor.ts`: the whole
body is wrapped in try/catch returning the empty record on any failure
(`none` input), and on success folds the entries of every page into the
record. -/
def extractPdfFormData (doc? : Option PdfDoc) : List (String × String) :=
  match doc? with
  | Option.none => []
  | some pages => pages.foldl (fun fd page => extractPage page fd) []

/-! ## Helper lemmas -/

theorem chopPre_append (xs ys : List Char) : chopPre xs (xs ++ ys) = some ys := by
  induction xs with
  | nil => rfl
  | cons a as ih => simp [chopPre, ih]

theorem mem_setField (m : List (String × String)) (k v : String) (p : String × String)
    (hp : p ∈ setField m k v) : p ∈ m ∨ p = (k, v) := by
  unfold setField at hp
  split at hp
  · rcases List.mem_map.mp hp with ⟨q, hq, he⟩
    by_cases h : q.1 = k
    · right; rw [if_pos h] at he; exact he.symm
    · left; rw [if_neg h] at he; exact he ▸ hq
  · rcases List.mem_append.mp hp with h | h
    · exact Or.inl h
    · right; simpa using h

/-- The property every record entry produced from a document must satisfy:
non-empty value, taken from some annotation of some page that has a truthy
field type and name and whose resolved value is the value of the entry. -/
def entryFromDoc (doc : PdfDoc) (p : String × String) : Prop :=
  p.2 ≠ "" ∧ ∃ page ∈ doc, ∃ a ∈ page,
    a.fieldType ≠ "" ∧ a.fieldName ≠ "" ∧ a.fieldName = p.1 ∧ annotValue a = p.2

theorem mem_extractPage (page : List PdfAnnot) :
    ∀ (fd : List (String × String)) (p : String × String), p ∈ extractPage page fd →
      p ∈ fd ∨ (p.2 ≠ "" ∧ ∃ a ∈ page,
        a.fieldType ≠ "" ∧ a.fieldName ≠ "" ∧ a.fieldName = p.1 ∧ annotValue a = p.2) := by
  induction page with
  | nil => intro fd p hp; exact Or.inl hp
  | cons a rest ih =>
    intro fd p hp
    rw [extractPage, List.foldl_cons] at hp
    rcases ih _ p hp with h | ⟨hne, b, hb, hprops⟩
    · by_cases hta : a.fieldType ≠ "" ∧ a.fieldName ≠ ""
      · rw [if_pos hta] at h
        by_cases hv : annotValue a ≠ ""
        · rw [if_pos hv] at h
          rcases mem_setField _ _ _ _ h with h' | h'
          · exact Or.inl h'
          · subst h'
            exact Or.inr ⟨hv, a, List.mem_cons_self a rest, hta.1, hta.2, rfl, rfl⟩
        · rw [if_neg hv] at h; exact Or.inl h
      · rw [if_neg hta] at h; exact Or.inl h
    · exact Or.inr ⟨hne, b, List.mem_cons_of_mem a hb, hprops⟩

theorem mem_extractPages (pages : List (List PdfAnnot)) :
    ∀ (fd : List (String × String)) (p : String × String),
      p ∈ pages.foldl (fun fd page => extractPage page fd) fd →
        p ∈ fd ∨ ∃ page ∈ pages, p.2 ≠ "" ∧ ∃ a ∈ page,
          a.fieldType ≠ "" ∧ a.fieldName ≠ "" ∧ a.fieldName = p.1 ∧ annotValue a = p.2 := by
  induction pages with
  | nil => intro fd p hp; exact Or.inl hp
  | cons page rest ih =>
    intro fd p hp
    rw [List.foldl_cons] at hp
    rcases ih _ p hp with h | ⟨pg, hpg, hgood⟩
    · rcases mem_extractPage page fd p h with h' | ⟨hne, hex⟩
      · exact Or.inl h'
      · exact Or.inr ⟨page, List.mem_cons_self page rest, hne, hex⟩
    · exact Or.inr ⟨pg, List.mem_cons_of_mem page hpg, hgood⟩

/-! ## Claim theorems -/

/-- C7: the Change Applier is idempotent per unit+operation pair within a
run - applying the same `ChangeRecord` twice yields exactly the same
destination state as applying it once. -/
theorem applyChange_idempotent (st : ApplierState) (c : ChangeRecord) :
    applyChange (applyChange st c) c = applyChange st c := by
  by_cases h : (c.unitId, c.op) ∈ st.applied
  · simp [applyChange, h]
  · simp [applyChange, h]

/-- C10: `extractPdfFormData` never rejects - on any fetch/load/iteration
failure it resolves to the empty record, and on success every entry of the
returned record maps a field name to a non-empty string taken from an
annotation with truthy `fieldType`, `fieldName` and field value. -/
theorem extractPdfFormData_total_and_sound :
    extractPdfFormData Option.none = [] ∧
    ∀ (doc : PdfDoc) (p : String × String), p ∈ extractPdfFormData (some doc) →
      entryFromDoc doc p := by
  refine ⟨rfl, ?_⟩
  intro doc p hp
  rw [extractPdfFormData] at hp
  rcases mem_extractPages doc [] p hp with h | ⟨pg, hpg, hne, a, ha, hprops⟩
  · simp at h
  · exact ⟨hne, pg, hpg, a, ha, hprops⟩

/-- Witness for C10 at a concrete one-page document with a single filled
text field. -/
theorem extractPdfFormData_total_and_sound_witness :
    (("Name", "Alice") ∈
      extractPdfFormData (some ([[⟨"Tx", "Name", "Alice", ""⟩]] : PdfDoc))) ∧
    entryFromDoc ([[⟨"Tx", "Name", "Alice", ""⟩]] : PdfDoc) ("Name", "Alice") :=
  ⟨by decide, extractPdfFormData_total_and_sound.2 _ _ (by decide)⟩

theorem pollVC_nonfinal_timeout (responses : Nat → PollResponse)
    (h : ∀ n, vcNonFinal (responses n)) :
    ∀ (remaining attempts : Nat),
      pollValueCreatorFrom responses attempts remaining = Except.error timeoutMsg := by
  intro remaining
  induction remaining with
  | zero => intro att; rfl
  | succ r ih =>
    intro att
    have hn := h att
    rcases he : responses att with _ | ⟨code, body⟩ | ⟨status, e, res⟩
    · simp [pollValueCreatorFrom, he, ih]
    · rw [he] at hn
      simp only [vcNonFinal] at hn
      rcases hn with h5 | h5 | h5 <;> simp [pollValueCreatorFrom, he, h5, ih]
    · rw [he] at hn
      simp only [vcNonFinal] at hn
      simp [pollValueCreatorFrom, he, hn.1, hn.2, ih]

theorem pollA3_nonfinal_timeout (apiBase : String) (responses : Nat → A3Response)
    (h : ∀ n, a3NonFinal (responses n)) :
    ∀ (remaining attempts : Nat),
      pollA3From apiBase responses attempts remaining = Except.error timeoutMsg := by
  intro remaining
  induction remaining with
  | zero => intro att; rfl
  | succ r ih =>
    intro att
    have hn := h att
    rcases he : responses att with _ | code | ⟨status, e, res⟩
    · rw [he] at hn; exact absurd hn (by simp [a3NonFinal])
    · rw [he] at hn; exact absurd hn (by simp [a3NonFinal])
    · rw [he] at hn
      simp only [a3NonFinal] at hn
      simp [pollA3From, he, hn.1, hn.2, ih]

theorem pollVC_ok_completed (responses : Nat → PollResponse) :
    ∀ (remaining attempts : Nat) (d : VCDisplay),
      pollValueCreatorFrom responses attempts remaining = Except.ok d →
        ∃ n e res, responses n = PollResponse.ok "completed" e res ∧
          d = extractCompleted res := by
  intro remaining
  induction remaining with
  | zero => intro att d h; simp [pollValueCreatorFrom] at h
  | succ r ih =>
    intro att d h
    rcases he : responses att with _ | ⟨code, body⟩ | ⟨status, e, res⟩ <;>
      simp only [pollValueCreatorFrom, he] at h
    · exact ih _ _ h
    · by_cases h5 : (decide (code = 502) || decide (code = 503) || decide (code = 504)) = true
      · rw [if_pos h5] at h; exact ih _ _ h
      · rw [if_neg h5] at h
        by_cases hf : containsFetch (statusCheckFailedMsg code body) = true
        · rw [if_pos hf] at h; exact ih _ _ h
        · rw [if_neg hf] at h; simp at h
    · by_cases hc : status = "completed"
      · rw [if_pos hc] at h
        subst hc
        exact ⟨att, e, res, he, by simpa using h.symm⟩
      · rw [if_neg hc] at h
        by_cases hfail : status = "failed"
        · rw [if_pos hfail] at h
          by_cases hf : containsFetch (jsOrString e "Processing failed") = true
          · rw [if_pos hf] at h; exact ih _ _ h
          · rw [if_neg hf] at h; simp at h
        · rw [if_neg hfail] at h; exact ih _ _ h

/-- C9: for any sequence of non-final status responses (still-processing
JSON on either page, plus 502/503/504 responses and network errors on the
Value Creator page, all of which consume attempts), both recursive
`pollStatus` loops terminate with the timeout error after at most
`maxAttempts` attempts - 180 on the Value Creator page and 120 on the A3
page. -/
theorem pollStatus_terminates (rV : Nat → PollResponse) (rA : Nat → A3Response)
    (apiBase : String) (hV : ∀ n, vcNonFinal (rV n)) (hA : ∀ n, a3NonFinal (rA n)) :
    pollStatusValueCreator rV valueCreatorMaxAttempts = Except.error timeoutMsg ∧
    pollStatusA3 apiBase rA a3MaxAttempts = Except.error timeoutMsg :=
  ⟨pollVC_nonfinal_timeout rV hV valueCreatorMaxAttempts 0,
    pollA3_nonfinal_timeout apiBase rA hA a3MaxAttempts 0⟩

/-- Witness for C9: a backend that forever reports `processing`. -/
theorem pollStatus_terminates_witness :
    pollStatusValueCreator (fun _ => PollResponse.ok "processing" Option.none Option.none)
      valueCreatorMaxAttempts = Except.error timeoutMsg ∧
    pollStatusA3 "" (fun _ => A3Response.ok "processing" Option.none Option.none)
      a3MaxAttempts = Except.error timeoutMsg :=
  pollStatus_terminates _ _ ""
    (fun _ => ⟨by decide, by decide⟩) (fun _ => ⟨by decide, by decide⟩)

/-- C2 (amended): a `failed` status response surfaces the payload
string (with fallback `Processing failed`) as the error - unconditionally
on the A3 page, and on the Value Creator page provided the message does not
contain the substring `fetch`; and the Value Creator poll only ever
produces results from a response whose status is `completed`. -/
theorem failed_status_surfaced (rV : Nat → PollResponse) (rA : Nat → A3Response)
    (apiBase : String) (n remaining : Nat) (errS : Option String)
    (resV : Option VCResult) (resA : Option A3Result) :
    (rA n = A3Response.ok "failed" errS resA →
      pollA3From apiBase rA n (remaining + 1) =
        Except.error (jsOrString errS "Processing failed")) ∧
    (rV n = PollResponse.ok "failed" errS resV →
      containsFetch (jsOrString errS "Processing failed") = false →
      pollValueCreatorFrom rV n (remaining + 1) =
        Except.error (jsOrString errS "Processing failed")) ∧
    (∀ (att rem : Nat) (d : VCDisplay),
      pollValueCreatorFrom rV att rem = Except.ok d →
        ∃ m e res, rV m = PollResponse.ok "completed" e res ∧
          d = extractCompleted res) := by
  refine ⟨?_, ?_, fun att rem d h => pollVC_ok_completed rV rem att d h⟩
  · intro h
    simp [pollA3From, h]
  · intro h hf
    simp [pollValueCreatorFrom, h, hf]

set_option maxRecDepth 10000 in
/-- C2 counterexample: a backend failure whose error string contains the
substring `fetch` is treated by the Value Creator catch block as a network
error and retried until the attempt budget runs out, so the page displays
the timeout message instead of the error string of the payload. -/
theorem failed_status_counterexample :
    pollStatusValueCreator
        (fun _ => PollResponse.ok "failed" (some "failed to fetch result") Option.none)
        valueCreatorMaxAttempts = Except.error timeoutMsg ∧
    timeoutMsg ≠ "failed to fetch result" := by
  constructor
  · rfl
  · decide

/-- Witness for C2 (amended) at concrete failed responses and one concrete
completed poll. -/
theorem failed_status_surfaced_witness :
    (pollA3From "" (fun _ => A3Response.ok "failed" (some "boom") Option.none) 0 1 =
      Except.error (jsOrString (some "boom") "Processing failed")) ∧
    (pollValueCreatorFrom (fun _ => PollResponse.ok "failed" (some "boom") Option.none) 0 1 =
      Except.error (jsOrString (some "boom") "Processing failed")) ∧
    (∃ m e res,
      (fun (_ : Nat) => PollResponse.ok "completed" Option.none Option.none) m =
        PollResponse.ok "completed" e res ∧
      extractCompleted Option.none = extractCompleted res) :=
  ⟨(failed_status_surfaced (fun _ => PollResponse.ok "failed" (some "boom") Option.none)
      (fun _ => A3Response.ok "failed" (some "boom") Option.none) "" 0 0 (some "boom")
      Option.none Option.none).1 rfl,
    (failed_status_surfaced (fun _ => PollResponse.ok "failed" (some "boom") Option.none)
      (fun _ => A3Response.ok "failed" (some "boom") Option.none) "" 0 0 (some "boom")
      Option.none Option.none).2.1 rfl (by decide),
    (failed_status_surfaced (fun _ => PollResponse.ok "completed" Option.none Option.none)
      (fun _ => A3Response.ok "failed" (some "boom") Option.none) "" 0 0 (some "boom")
      Option.none Option.none).2.2 0 1 (extractCompleted Option.none) rfl⟩

/-- C3: a `completed` status response makes the Value Creator poll return
the displayed results, whose chunks processed, sections processed and total
changes are exactly the payload fields `stages.pdf_analysis.chunks_processed`,
`stages.word_processing.sections.successful_sections` and
`stages.word_processing.changes.total_changes_applied`, each 0 when
absent. -/
theorem completed_display_fields (rV : Nat → PollResponse) (att rem : Nat)
    (e : Option String) (res : Option VCResult)
    (h : rV att = PollResponse.ok "completed" e res) :
    pollValueCreatorFrom rV att (rem + 1) = Except.ok (extractCompleted res) ∧
    (extractCompleted res).chunksProcessed =
      (((res.bind VCResult.stages).bind StagesInfo.pdf_analysis).bind
        PdfAnalysis.chunks_processed).getD 0 ∧
    (extractCompleted res).sectionsProcessed =
      ((((res.bind VCResult.stages).bind StagesInfo.word_processing).bind
        WordProcessing.sections).bind SectionsInfo.successful_sections).getD 0 ∧
    (extractCompleted res).changesApplied =
      ((((res.bind VCResult.stages).bind StagesInfo.word_processing).bind
        WordProcessing.changes).bind ChangesInfo.total_changes_applied).getD 0 := by
  refine ⟨by simp [pollValueCreatorFrom, h], ?_, ?_, ?_⟩ <;>
    rcases res with _ | ⟨_ | ⟨_ | ⟨cp⟩, _ | ⟨_ | ⟨ss⟩, _ | ⟨tca, sb⟩⟩⟩, of, stt, er⟩ <;>
    simp [extractCompleted]

/-- Witness for C3 at a concrete completed response. -/
theorem completed_display_fields_witness :
    pollValueCreatorFrom (fun _ => PollResponse.ok "completed" Option.none
        (some ⟨some ⟨some ⟨some 7⟩, some ⟨some ⟨some 4⟩, some ⟨some 9, Option.none⟩⟩⟩,
          some "out.docx", some "success", Option.none⟩)) 0 1 =
      Except.ok (extractCompleted (some ⟨some ⟨some ⟨some 7⟩,
        some ⟨some ⟨some 4⟩, some ⟨some 9, Option.none⟩⟩⟩,
        some "out.docx", some "success", Option.none⟩)) ∧
    (extractCompleted (some ⟨some ⟨some ⟨some 7⟩,
        some ⟨some ⟨some 4⟩, some ⟨some 9, Option.none⟩⟩⟩,
        some "out.docx", some "success", Option.none⟩)).chunksProcessed = 7 :=
  ⟨(completed_display_fields _ 0 0 Option.none _ rfl).1, by decide⟩

/-- A completed payload whose `total_changes_applied` is 1 but which
carries no `strategy_breakdown` object. -/
def c4Payload : Option VCResult :=
  some ⟨some ⟨Option.none, some ⟨Option.none, some ⟨some 1, Option.none⟩⟩⟩,
    Option.none, some "success", Option.none⟩

/-- C4 counterexample: on a payload with `total_changes_applied = 1` and no
`strategy_breakdown`, the polling implementation displays 1 while the
synchronous implementation displays 0, so the two extraction
implementations do not agree on every payload. -/
theorem changesApplied_mismatch :
    pollChangesApplied c4Payload ≠ syncChangesApplied c4Payload := by
  decide

/-- C4 (amended): the two displayed `changesApplied` values agree exactly
on the payloads whose `total_changes_applied` (0 when absent) equals the
sum of the three `strategy_breakdown` counters (each 0 when absent) - the
polling implementation reads the former and the synchronous implementation
computes the latter. -/
theorem changesApplied_agree_iff (res : Option VCResult) :
    pollChangesApplied res = syncChangesApplied res ↔
      ((((res.bind VCResult.stages).bind StagesInfo.word_processing).bind
          WordProcessing.changes).bind ChangesInfo.total_changes_applied).getD 0 =
        (((((res.bind VCResult.stages).bind StagesInfo.word_processing).bind
            WordProcessing.changes).bind ChangesInfo.strategy_breakdown).bind
          StrategyBreakdown.exact_matches).getD 0 +
        (((((res.bind VCResult.stages).bind StagesInfo.word_processing).bind
            WordProcessing.changes).bind ChangesInfo.strategy_breakdown).bind
          StrategyBreakdown.similarity_matches).getD 0 +
        (((((res.bind VCResult.stages).bind StagesInfo.word_processing).bind
            WordProcessing.changes).bind ChangesInfo.strategy_breakdown).bind
          StrategyBreakdown.keyword_matches).getD 0 := by
  rcases res with _ |
      ⟨_ | ⟨pa, _ | ⟨sec, _ | ⟨tca, _ | ⟨em, sm, km⟩⟩⟩⟩, of, stt, er⟩ <;>
    simp [pollChangesApplied, syncChangesApplied, extractCompleted]

/-- C8: with a truthy output path and job id, `handleDownload` requests
exactly `API_BASE + /downloads/ + jobId + / + fileName` where `fileName` is
the last path segment of the output file split on forward and backward
slashes (defaulting to `value_creator_output.docx`), and the Next.js
configuration rewrites every `/downloads/...` path to the backend host. -/
theorem download_url_and_rewrite (apiBase jobId doc rest : String)
    (hdoc : doc ≠ "") (hjob : jobId ≠ "") :
    handleDownload apiBase { finalDocument := some doc, jobId := jobId } =
      some (apiBase ++ "/downloads/" ++ jobId ++ "/" ++
        (if lastSlashSeg doc = "" then "value_creator_output.docx"
          else lastSlashSeg doc)) ∧
    applyRewrites (nextRewrites backendHost) ("/downloads/" ++ rest) =
      some (backendHost ++ "/downloads/" ++ rest) := by
  constructor
  · simp [handleDownload, jsTruthy, hdoc, hjob, jsOrString]
  · have h1 : ruleApply { source := "/api/:path*", destination := backendHost ++ "/api/:path*" }
        ("/downloads/" ++ rest) = Option.none := by
      simp only [ruleApply]
      rw [show dropSuf ((":path*" : String).data) (("/api/:path*" : String).data) =
        some (("/api/" : String).data) by decide]
      rw [show dropSuf ((":path*" : String).data) ((backendHost ++ "/api/:path*").data) =
        some ((backendHost ++ "/api/").data) by decide]
      dsimp only
      rw [String.data_append]
      show (match chopPre ['/', 'a', 'p', 'i', '/']
          (['/', 'd', 'o', 'w', 'n', 'l', 'o', 'a', 'd', 's', '/'] ++ rest.data) with
        | some r => some (String.mk ((backendHost ++ "/api/").data ++ r))
        | Option.none => Option.none) = Option.none
      simp [chopPre]
    have h2 : ruleApply ⟨"/downloads/:path*", backendHost ++ "/downloads/:path*"⟩
        ("/downloads/" ++ rest) = some (backendHost ++ "/downloads/" ++ rest) := by
      simp only [ruleApply]
      rw [show dropSuf ((":path*" : String).data) (("/downloads/:path*" : String).data) =
        some (("/downloads/" : String).data) by decide]
      rw [show dropSuf ((":path*" : String).data) ((backendHost ++ "/downloads/:path*").data) =
        some ((backendHost ++ "/downloads/").data) by decide]
      dsimp only
      rw [String.data_append]
      show (match chopPre ['/', 'd', 'o', 'w', 'n', 'l', 'o', 'a', 'd', 's', '/']
          (['/', 'd', 'o', 'w', 'n', 'l', 'o', 'a', 'd', 's', '/'] ++ rest.data) with
        | some r => some (String.mk ((backendHost ++ "/downloads/").data ++ r))
        | Option.none => Option.none) = some (backendHost ++ "/downloads/" ++ rest)
      rw [chopPre_append]
      rfl
    simp [applyRewrites, nextRewrites, h1, h2]

/-- Witness for C8 at a concrete output path with subdirectories. -/
theorem download_url_and_rewrite_witness :
    handleDownload "" { finalDocument := some "outputs/j7/letter.docx", jobId := "j7" } =
      some ("" ++ "/downloads/" ++ "j7" ++ "/" ++
        (if lastSlashSeg "outputs/j7/letter.docx" = "" then "value_creator_output.docx"
          else lastSlashSeg "outputs/j7/letter.docx")) ∧
    applyRewrites (nextRewrites backendHost) ("/downloads/" ++ "j7/letter.docx") =
      some (backendHost ++ "/downloads/" ++ "j7/letter.docx") :=
  download_url_and_rewrite "" "j7" "outputs/j7/letter.docx" "j7/letter.docx"
    (by decide) (by decide)

/-- C1: when some not-yet-consumed destination unit matches the candidate
exactly after normalization, the Cascading Text Matcher selects the first
unit (in destination order) satisfying the exact test and returns strategy
`exact` with score 1.0 - the similarity and keyword strategies are never
the chosen strategy in that case. -/
theorem exact_strategy_priority (P : MatcherParams) (cand : String) (units : List DUnit)
    (h : ∃ u ∈ units, exactUnitMatch cand u = true) :
    ∃ u, units.find? (exactUnitMatch cand) = some u ∧ exactUnitMatch cand u = true ∧
      cascadingMatch P cand units =
        { unit? := some u, strategy := MatchStrategy.exact, score := 1, accepted := true } := by
  have hs : (units.find? (exactUnitMatch cand)).isSome := by
    rw [List.find?_isSome]
    rcases h with ⟨u, hu, hm⟩
    exact ⟨u, hu, hm⟩
  rcases Option.isSome_iff_exists.mp hs with ⟨u, hu⟩
  exact ⟨u, hu, List.find?_some hu, by simp [cascadingMatch, hu]⟩

/-- Witness for C1 at the worked example of the specification: candidate
`Total fee: $1,200` against an exactly-matching and a fuzzy-similar unit. -/
theorem exact_strategy_priority_witness :
    ∃ u, ([⟨0, "Total fee: $1,200"⟩, ⟨1, "Total fees: $1200 approx"⟩] :
          List DUnit).find? (exactUnitMatch "Total fee: $1,200") = some u ∧
      exactUnitMatch "Total fee: $1,200" u = true ∧
      cascadingMatch ⟨fun _ _ => 0, fun _ _ => 0, 1⟩ "Total fee: $1,200"
          [⟨0, "Total fee: $1,200"⟩, ⟨1, "Total fees: $1200 approx"⟩] =
        { unit? := some u, strategy := MatchStrategy.exact, score := 1, accepted := true } :=
  exact_strategy_priority ⟨fun _ _ => 0, fun _ _ => 0, 1⟩ "Total fee: $1,200"
    [⟨0, "Total fee: $1,200"⟩, ⟨1, "Total fees: $1200 approx"⟩]
    ⟨⟨0, "Total fee: $1,200"⟩, by decide, by decide⟩

/-- C5: with no exact match available, a best similarity score of exactly
0.6 is accepted with strategy `similarity`, while a best score of 0.59 is
rejected and the matcher falls through to the keyword strategy. -/
theorem similarity_threshold_boundary (P : MatcherParams) (cand : String)
    (units : List DUnit) (u : DUnit)
    (hex : units.find? (exactUnitMatch cand) = Option.none) :
    (bestBy (fun v => P.sim cand v.text) units = some (u, 3 / 5) →
      cascadingMatch P cand units =
        { unit? := some u, strategy := MatchStrategy.similarity, score := 3 / 5,
          accepted := true }) ∧
    (bestBy (fun v => P.sim cand v.text) units = some (u, 59 / 100) →
      cascadingMatch P cand units = keywordFallback P cand units) := by
  constructor
  · intro hb
    simp only [cascadingMatch, hex, hb]
    rw [if_pos (by norm_num [similarityThreshold])]
  · intro hb
    simp only [cascadingMatch, hex, hb]
    rw [if_neg (by norm_num [similarityThreshold])]

/-- Witness for C5: two constant similarity functions producing scores of
exactly 0.6 and 0.59 on a one-unit pool with no exact match. -/
theorem similarity_threshold_boundary_witness :
    cascadingMatch ⟨fun _ _ => 3 / 5, fun _ _ => 0, 1⟩ "zzz" [⟨0, "aaa"⟩] =
      { unit? := some ⟨0, "aaa"⟩, strategy := MatchStrategy.similarity, score := 3 / 5,
        accepted := true } ∧
    cascadingMatch ⟨fun _ _ => 59 / 100, fun _ _ => 0, 1⟩ "zzz" [⟨0, "aaa"⟩] =
      keywordFallback ⟨fun _ _ => 59 / 100, fun _ _ => 0, 1⟩ "zzz" [⟨0, "aaa"⟩] :=
  ⟨(similarity_threshold_boundary ⟨fun _ _ => 3 / 5, fun _ _ => 0, 1⟩ "zzz" [⟨0, "aaa"⟩]
      ⟨0, "aaa"⟩ (by decide)).1 rfl,
    (similarity_threshold_boundary ⟨fun _ _ => 59 / 100, fun _ _ => 0, 1⟩ "zzz" [⟨0, "aaa"⟩]
      ⟨0, "aaa"⟩ (by decide)).2 rfl⟩

theorem runStep_not_in_pool (P : MatcherParams) (s : RunState) (r : Region) (i : Nat)
    (h : i ∉ s.pool.map DUnit.id) : i ∉ (runStep P s r).pool.map DUnit.id := by
  rcases hm : (cascadingMatch P r.text s.pool).unit? with _ | u
  · simpa [runStep, hm] using h
  · simp only [runStep, hm]
    by_cases hop : r.op = ChangeOp.append
    · simpa [hop] using h
    · rw [if_neg hop]
      intro hmem
      apply h
      rcases List.mem_map.mp hmem with ⟨v, hv, he⟩
      exact List.mem_map.mpr ⟨v, (List.mem_filter.mp hv).1, he⟩

theorem runStates_not_in_pool (P : MatcherParams) (rs : List Region) :
    ∀ (s : RunState) (i : Nat), i ∉ s.pool.map DUnit.id →
      ∀ t ∈ runStates P s rs, i ∉ t.pool.map DUnit.id := by
  induction rs with
  | nil => intro s i h t ht; simp [runStates] at ht
  | cons r rs ih =>
    intro s i h t ht
    simp only [runStates, List.mem_cons] at ht
    rcases ht with rfl | ht
    · exact runStep_not_in_pool P s r i h
    · exact ih _ i (runStep_not_in_pool P s r i h) t ht

/-- C6: once the match of a region on unit `u` is accepted with a `replace` or
`delete` operation, `u` is removed from the matching pool immediately and
stays out of the candidate pool of every later region of the same run; a
unit matched by an explicit `append` operation remains in the pool. -/
theorem unit_consumption (P : MatcherParams) (s : RunState) (r : Region)
    (rs : List Region) (u : DUnit)
    (hm : (cascadingMatch P r.text s.pool).unit? = some u) :
    (r.op ≠ ChangeOp.append →
      u.id ∉ (runStep P s r).pool.map DUnit.id ∧
      ∀ t ∈ runStates P (runStep P s r) rs, u.id ∉ t.pool.map DUnit.id) ∧
    (r.op = ChangeOp.append → (runStep P s r).pool = s.pool) := by
  constructor
  · intro hop
    have h1 : u.id ∉ (runStep P s r).pool.map DUnit.id := by
      simp only [runStep, hm]
      rw [if_neg hop]
      intro hmem
      rcases List.mem_map.mp hmem with ⟨v, hv, he⟩
      have : v.id ≠ u.id := by simpa using (List.mem_filter.mp hv).2
      exact this he
    exact ⟨h1, runStates_not_in_pool P rs _ _ h1⟩
  · intro hop
    simp [runStep, hm, hop]

/-- Witness for C6: a two-unit pool, a first region that replaces the unit
it matches exactly, and one later region. -/
theorem unit_consumption_witness :
    ((⟨3, "abc"⟩ : DUnit).id ∉
      (runStep ⟨fun _ _ => 0, fun _ _ => 0, 1⟩
        ⟨[⟨3, "abc"⟩, ⟨4, "xyz"⟩], [], 0⟩ ⟨"abc", ChangeOp.replace⟩).pool.map DUnit.id) ∧
    ∀ t ∈ runStates ⟨fun _ _ => 0, fun _ _ => 0, 1⟩
        (runStep ⟨fun _ _ => 0, fun _ _ => 0, 1⟩
          ⟨[⟨3, "abc"⟩, ⟨4, "xyz"⟩], [], 0⟩ ⟨"abc", ChangeOp.replace⟩)
        [⟨"xyz", ChangeOp.delete⟩],
      (⟨3, "abc"⟩ : DUnit).id ∉ t.pool.map DUnit.id :=
  (unit_consumption ⟨fun _ _ => 0, fun _ _ => 0, 1⟩
      ⟨[⟨3, "abc"⟩, ⟨4, "xyz"⟩], [], 0⟩ ⟨"abc", ChangeOp.replace⟩
      [⟨"xyz", ChangeOp.delete⟩] ⟨3, "abc"⟩ (by decide)).1 (by decide)

end M4L
